import Mathlib

/-!
Shallow embedding of the Availability Risk & Penalty Engine of `src/app.py`
(wind-farm availability analysis app).

Numeric values are modelled as rationals (`ℚ`): the Python code computes with
floats, but every formula in it is exact rational arithmetic on its inputs, so
`ℚ` captures the algebra the claims are about.  Pandas/NumPy vector operations
over a column are modelled as operations on `List ℚ`.  Randomness (the pandas
`.sample(frac=1, replace=True)` call, which uses NumPy's *global* generator —
the script never seeds it and never passes `random_state`) is modelled by an
explicit infinite stream `g : ℕ → ℕ` of raw draws together with a cursor
position: each elementary draw consumes one stream position, and an invocation
returns the advanced cursor, exactly as a global generator's hidden state
advances.
-/

namespace WindApp

/-- Financial impact per year, `src/app.py` lines 113–119:
`diff = Disponibilidade - disp_contratual` and
`np.where(diff < 0, -diff * fator_multa * pmd, diff * fator_bonus * pmd)`.
Arguments: availability mean `a`, contractual threshold `c`, penalty factor
`fm`, bonus factor `fb`, energy price `pmd`. -/
def impactoFinanceiro (a c fm fb pmd : ℚ) : ℚ :=
  if a - c < 0 then -(a - c) * fm * pmd else (a - c) * fb * pmd

/-- The penalty branch of the `np.where` in `src/app.py` line 115–119: the
impact value when `diff < 0`, and `0` otherwise (the single impact column
holds a penalty in the first branch and a bonus in the second). -/
def penaltyAmount (a c fm pmd : ℚ) : ℚ :=
  if a - c < 0 then -(a - c) * fm * pmd else 0

/-- The bonus branch of the `np.where` in `src/app.py` line 115–119. -/
def bonusAmount (a c fb pmd : ℚ) : ℚ :=
  if a - c < 0 then 0 else (a - c) * fb * pmd

/-- The impact column is exactly penalty-branch plus bonus-branch (one of the
two is always zero). -/
theorem impacto_decomp (a c fm fb pmd : ℚ) :
    impactoFinanceiro a c fm fb pmd = penaltyAmount a c fm pmd + bonusAmount a c fb pmd := by
  unfold impactoFinanceiro penaltyAmount bonusAmount
  by_cases h : a - c < 0 <;> simp [h]

/-- `src/app.py` lines 121–124: `try: wtgs = float(df_parque['WTGs'].iloc[0])
except: wtgs = 0`.  A missing or unconvertible turbine count is modelled as
`none` and silently becomes `0`. -/
def wtgsOrZero : Option ℚ → ℚ
  | some w => w
  | none => 0

/-- `src/app.py` line 125: `wtgs * (np.abs(diff) / 100) * mwh_por_wtg * 365`. -/
def perdaEnergetica (wtgs diffPct mwhPorWtg : ℚ) : ℚ :=
  wtgs * (|diffPct| / 100) * mwhPorWtg * 365

/-- One step of the distribution-selection loop, `src/app.py` lines 98–109.
A candidate is a pair of its name and its fit outcome: `none` when
`dist.fit`/`kstest` raised (the `except` branch records an error and the
candidate is skipped), `some p` when the Kolmogorov–Smirnov p-value is `p`.
The accumulator is the current `(melhor_ajuste, melhor_pvalor)` pair, `none`
while `melhor_pvalor` is still `-inf`; the update fires on the strict
comparison `p_value > melhor_pvalor`. -/
def passoAjuste (s : Option (String × ℚ)) (c : String × Option ℚ) : Option (String × ℚ) :=
  match c.2 with
  | none => s
  | some p =>
    match s with
    | none => some (c.1, p)
    | some (n, q) => if q < p then some (c.1, p) else some (n, q)

/-- The whole selection loop of `src/app.py` lines 94–109, folded over the
candidate list in iteration order. -/
def melhorAjuste (cands : List (String × Option ℚ)) : Option (String × ℚ) :=
  cands.foldl passoAjuste none

/-- `src/app.py` line 193: `(disponibilidades < disp_contratual).mean()` —
the mean of the 0/1 indicator column of the strict comparison. -/
def probEmpirica (xs : List ℚ) (c : ℚ) : ℚ :=
  (xs.map (fun x => if x < c then (1 : ℚ) else 0)).sum / xs.length

/-- The spec's wording of the monthly empirical probability: the fraction of
historical samples strictly below the threshold (count below over total). -/
def fracBelowSpec (xs : List ℚ) (c : ℚ) : ℚ :=
  (xs.countP (fun x => decide (x < c)) : ℚ) / xs.length

/-- Arithmetic mean of a list, as pandas `.mean()`. -/
def mean (l : List ℚ) : ℚ := l.sum / l.length

/-- One full-size resample with replacement,
`disponibilidades.sample(frac=1, replace=True)` at `src/app.py` line 199:
`xs.length` elementary draws from the global stream `g` starting at cursor
`s`; each raw draw is reduced mod the sample size to an index into `xs`. -/
def resampleAt (xs : List ℚ) (g : ℕ → ℕ) (s : ℕ) : List ℚ :=
  (List.range xs.length).map (fun j => xs.getD (g (s + j) % xs.length) 0)

/-- The `boot_means` list built by the loop at `src/app.py` lines 197–200:
`B` resample means, the `i`-th resample consuming stream positions
`s + i*n, …, s + i*n + n - 1`. -/
def bootMeans (xs : List ℚ) (g : ℕ → ℕ) (s B : ℕ) : List ℚ :=
  (List.range B).map (fun i => mean (resampleAt xs g (s + i * xs.length)))

/-- Cursor position of the global generator after one bootstrap run. -/
def bootEndState (s B n : ℕ) : ℕ := s + B * n

/-- One invocation of the bootstrap block (`src/app.py` lines 196–200) as it
interacts with the global generator: it returns the `boot_means` list and the
advanced cursor, which a subsequent invocation starts from. -/
def bootstrapRun (xs : List ℚ) (g : ℕ → ℕ) (s B : ℕ) : List ℚ × ℕ :=
  (bootMeans xs g s B, bootEndState s B xs.length)

/-- `np.percentile(a, q)` with the default linear interpolation: sort the
data, locate `pos = q/100 * (n-1)`, and interpolate between the two
neighbouring order statistics.  (NumPy errors on an empty array; the `0` in
that branch is a guard value, the app always calls this on a list of at least
100 bootstrap means.) -/
def percentile (l : List ℚ) (q : ℚ) : ℚ :=
  let s := List.insertionSort (· ≤ ·) l
  if s.length = 0 then 0
  else
    let pos : ℚ := q / 100 * ((s.length : ℚ) - 1)
    let i : ℕ := (Int.floor pos).toNat
    let lo := s.getD i 0
    let hi := s.getD (i + 1) lo
    lo + (pos - (i : ℚ)) * (hi - lo)

/-- `ci_lower = np.percentile(boot_means, 2.5)`, `src/app.py` line 201. -/
def ci_lower (xs : List ℚ) (g : ℕ → ℕ) (s B : ℕ) : ℚ :=
  percentile (bootMeans xs g s B) (5 / 2)

/-- `ci_upper = np.percentile(boot_means, 97.5)`, `src/app.py` line 202. -/
def ci_upper (xs : List ℚ) (g : ℕ → ℕ) (s B : ℕ) : ℚ :=
  percentile (bootMeans xs g s B) (195 / 2)

/-! ### Date handling for `prepare_long_format` (`src/app.py` lines 39–50)

`pd.to_datetime(df_long['Data'], format='%m/%d/%Y', errors='coerce')` parses a
label as month/day/four-or-fewer-digit-year separated by `/`, validating the
day against the month's length (Gregorian leap years); a label that does not
match becomes `NaT` and is removed by the following
`dropna(subset=['Data'])`.  Dates are modelled as `(year, month, day)`
triples. -/

/-- Split a character list at every `/`. -/
def splitSlash : List Char → List (List Char)
  | [] => [[]]
  | c :: cs =>
    if c = '/' then [] :: splitSlash cs
    else
      match splitSlash cs with
      | [] => [[c]]
      | h :: t => (c :: h) :: t

/-- Read a digit string as a number, `none` on any non-digit. -/
def digitsVal : List Char → ℕ → Option ℕ
  | [], acc => some acc
  | c :: cs, acc => if c.isDigit then digitsVal cs (acc * 10 + (c.toNat - 48)) else none

/-- A non-empty all-digit field, as accepted by `strptime`'s numeric
directives. -/
def fieldNat (cs : List Char) : Option ℕ :=
  match cs with
  | [] => none
  | _ => digitsVal cs 0

/-- Gregorian leap-year rule. -/
def isLeap (y : ℕ) : Bool :=
  (y % 4 == 0 && y % 100 != 0) || y % 400 == 0

/-- Number of days of month `m` in year `y`. -/
def daysInMonth (y m : ℕ) : ℕ :=
  if m = 2 then (if isLeap y then 29 else 28)
  else if m = 4 ∨ m = 6 ∨ m = 9 ∨ m = 11 then 30 else 31

/-- Parse a date label in `%m/%d/%Y` format, with calendar validation as
`pd.to_datetime` performs it; `none` models `NaT` under `errors='coerce'`. -/
def parseMDY (s : String) : Option (ℕ × ℕ × ℕ) :=
  match splitSlash s.toList with
  | [ms, ds, ys] =>
    match fieldNat ms, fieldNat ds, fieldNat ys with
    | some m, some d, some y =>
      if 1 ≤ m ∧ m ≤ 12 ∧ 1 ≤ d ∧ d ≤ daysInMonth y m then some (y, m, d) else none
    | _, _, _ => none
  | _ => none

/-- Chronological sort key of a date triple: later dates have larger keys. -/
def dateKey (t : ℕ × ℕ × ℕ) : ℕ := t.1 * 10000 + t.2.1 * 100 + t.2.2

/-- Row comparison used by `sort_values('Data')`: nondecreasing date order. -/
def rowLE (a b : (ℕ × ℕ × ℕ) × ℚ) : Prop := dateKey a.1 ≤ dateKey b.1

instance : DecidableRel rowLE :=
  fun a b => inferInstanceAs (Decidable (dateKey a.1 ≤ dateKey b.1))

instance : IsTotal ((ℕ × ℕ × ℕ) × ℚ) rowLE := ⟨fun _ _ => Nat.le_total _ _⟩

instance : IsTrans ((ℕ × ℕ × ℕ) × ℚ) rowLE := ⟨fun _ _ _ h1 h2 => Nat.le_trans h1 h2⟩

/-- `prepare_long_format`, `src/app.py` lines 39–50, after the `melt` (the
melt itself only reshapes: each kept row of the long table is one
(date-label, availability) pair).  `to_datetime(..., errors='coerce')`
followed by `dropna(subset=['Data'])` keeps exactly the rows whose label
parses, and `sort_values('Data')` orders them by date. -/
def prepare_long_format (rows : List (String × ℚ)) : List ((ℕ × ℕ × ℕ) × ℚ) :=
  List.insertionSort rowLE
    (rows.filterMap fun p => (parseMDY p.1).map fun t => (t, p.2))

/-! ## Shared lemmas -/

/-- The pandas mean of a 0/1 indicator column is the matching count over the
length. -/
theorem indicator_sum_eq_countP (xs : List ℚ) (c : ℚ) :
    (xs.map (fun x => if x < c then (1 : ℚ) else 0)).sum
      = (xs.countP (fun x => decide (x < c)) : ℚ) := by
  induction xs with
  | nil => simp
  | cons x xs ih =>
    by_cases h : x < c <;> simp [List.countP_cons, h, ih, add_comm]

/-! ## Claims -/

/-- C1, counterexample.  At threshold 95, penalty factor 1, energy price 100,
energy exposure 1000 and mean availability 90, the code's financial impact is
500, not `fp * pmd * e_total * (c/a − 1)` and not 5 555.56: the impact column
of `src/app.py` lines 115–119 multiplies neither by the energy exposure nor by
the ratio `c/a`. -/
theorem C1_counterexample :
    impactoFinanceiro 90 95 1 1 100 = 500 ∧
      impactoFinanceiro 90 95 1 1 100 ≠ 1 * 100 * 1000 * (95 / 90 - 1) ∧
      impactoFinanceiro 90 95 1 1 100 ≠ 555556 / 100 := by
  norm_num [impactoFinanceiro]

/-- C1, amended.  When mean availability `a` is below the threshold `c`, the
financial impact is the penalty `fm * pmd * (c − a)` — linear in the
availability shortfall in percentage points, with no energy-exposure factor —
and the bonus branch contributes zero. -/
theorem C1_penalty_linear (a c fm fb pmd : ℚ) (h : a < c) :
    impactoFinanceiro a c fm fb pmd = fm * pmd * (c - a) ∧ bonusAmount a c fb pmd = 0 := by
  have hd : a - c < 0 := by linarith
  unfold impactoFinanceiro bonusAmount
  rw [if_pos hd, if_pos hd]
  exact ⟨by ring, rfl⟩

/-- C1, witness: the amended formula at the concrete scenario of the claim
gives `1 * 100 * (95 − 90) = 500`. -/
theorem C1_witness :
    impactoFinanceiro 90 95 1 1 100 = 1 * 100 * (95 - 90) ∧ bonusAmount 90 95 1 100 = 0 :=
  C1_penalty_linear 90 95 1 1 100 (by norm_num)

/-- C3, counterexample.  At mean availability 0 (and at −5) the financial
computation silently returns a finite monetary value — 9 500 (resp. 10 000) —
instead of failing: the formula of `src/app.py` lines 115–119 contains no
division by the availability, so no `DivisionError` can occur. -/
theorem C3_counterexample :
    impactoFinanceiro 0 95 1 1 100 = 9500 ∧ impactoFinanceiro (-5) 95 1 1 100 = 10000 := by
  norm_num [impactoFinanceiro]

/-- C3, amended.  For non-positive mean availability (with positive
threshold) the computation succeeds and returns the finite penalty value
`fm * pmd * (c − a)`; the code raises no error for such input. -/
theorem C3_nonpositive_total (a c fm fb pmd : ℚ) (ha : a ≤ 0) (hc : 0 < c) :
    impactoFinanceiro a c fm fb pmd = fm * pmd * (c - a) := by
  have hd : a - c < 0 := by linarith
  unfold impactoFinanceiro
  rw [if_pos hd]; ring

/-- C3, witness: at availability 0 and threshold 95 the impact evaluates to
`1 * 100 * (95 − 0)`. -/
theorem C3_witness : impactoFinanceiro 0 95 1 1 100 = 1 * 100 * (95 - 0) :=
  C3_nonpositive_total 0 95 1 1 100 (by norm_num) (by norm_num)

/-- C4.  The penalty branch and the bonus branch of the `np.where` are
mutually exclusive: for every availability, threshold and factors, at least
one of the two amounts is zero. -/
theorem C4_mutually_exclusive (a c fm fb pmd : ℚ) :
    penaltyAmount a c fm pmd = 0 ∨ bonusAmount a c fb pmd = 0 := by
  by_cases h : a - c < 0
  · right; simp [bonusAmount, h]
  · left; simp [penaltyAmount, h]

/-- C9, counterexample.  A missing (unconvertible) `WTGs` value silently
becomes 0 and the downstream energy-loss figure is still computed (it is 0,
not an error); a negative turbine count −3 is accepted unchanged and yields
the negative energy loss −1 095 MWh/yr.  No `InputError` is raised anywhere
(`src/app.py` lines 121–125). -/
theorem C9_counterexample :
    wtgsOrZero none = 0 ∧ perdaEnergetica (wtgsOrZero none) (-5) 20 = 0 ∧
      wtgsOrZero (some (-3)) = -3 ∧
      perdaEnergetica (wtgsOrZero (some (-3))) (-5) 20 = -1095 := by
  norm_num [wtgsOrZero, perdaEnergetica]

/-- C9, amended.  When the turbine count is missing, the `try/except`
fallback substitutes 0 and every downstream annual energy-loss figure is
computed as 0 — the pipeline proceeds, it never fails. -/
theorem C9_silent_zero (diffPct mwh : ℚ) :
    perdaEnergetica (wtgsOrZero none) diffPct mwh = 0 := by
  simp [wtgsOrZero, perdaEnergetica]

/-- C7.  For a non-empty sample, the empirical breach probability of
`src/app.py` line 193 equals the fraction of sample values strictly below the
threshold (values equal to the threshold are not counted). -/
theorem C7_prob_empirica_is_strict_fraction (xs : List ℚ) (c : ℚ) (_hxs : xs ≠ []) :
    probEmpirica xs c = fracBelowSpec xs c := by
  unfold probEmpirica fracBelowSpec
  rw [indicator_sum_eq_countP]

/-- C7, witness: on the sample `[90, 95, 100]` with threshold 95 both sides
agree (the value 95 itself is not counted). -/
theorem C7_witness :
    probEmpirica [90, 95, 100] 95 = fracBelowSpec [90, 95, 100] 95 :=
  C7_prob_empirica_is_strict_fraction [90, 95, 100] 95 (by simp)

/-- C6.  The empirical breach probability of `src/app.py` line 193 is
monotone in the threshold: a lower threshold is breached with at most the
probability of a higher one. -/
theorem C6_prob_empirica_monotone (xs : List ℚ) (t1 t2 : ℚ) (h : t1 < t2) :
    probEmpirica xs t1 ≤ probEmpirica xs t2 := by
  unfold probEmpirica
  rw [indicator_sum_eq_countP, indicator_sum_eq_countP]
  rcases eq_or_ne xs [] with hx | hx
  · subst hx; simp
  · have hlen : (0 : ℚ) < xs.length := by
      exact_mod_cast List.length_pos.mpr hx
    rw [div_le_div_iff_of_pos_right hlen]
    have : xs.countP (fun x => decide (x < t1)) ≤ xs.countP (fun x => decide (x < t2)) := by
      refine List.countP_mono_left (fun x _ hp => ?_)
      exact decide_eq_true (lt_trans (of_decide_eq_true hp) h)
    exact_mod_cast this

/-- C6, witness: on the sample `[90, 96]`, the breach probability at
threshold 94 is at most the one at threshold 97. -/
theorem C6_witness : probEmpirica [90, 96] 94 ≤ probEmpirica [90, 96] 97 :=
  C6_prob_empirica_monotone [90, 96] 94 97 (by norm_num)

/-- C5, counterexample.  The bootstrap block reads the unseeded global
generator: a second invocation with the identical sample starts from the
cursor where the first one stopped, and with the stream
`0, 0, 1, 1, …` the first run returns `boot_means = [0]` while the second
returns `[100]`.  No seed parameter exists anywhere in `src/app.py` — the
`.sample` call on line 199 passes no `random_state`. -/
theorem C5_counterexample :
    (bootstrapRun [0, 100] (fun n => if n < 2 then 0 else 1) 0 1).1 ≠
      (bootstrapRun [0, 100] (fun n => if n < 2 then 0 else 1)
        ((bootstrapRun [0, 100] (fun n => if n < 2 then 0 else 1) 0 1).2) 1).1 := by
  norm_num [bootstrapRun, bootMeans, bootEndState, resampleAt, mean, List.range_succ]

/-- C5, amended.  The bootstrap outcome is a deterministic function of the
sample together with the consumed segment of the global random stream: two
invocations that read identical stream segments from the same cursor return
identical `boot_means` lists and identical final cursors.  (The fitting loop
`melhorAjuste` is a pure function of its input, so its determinism is
definitional.)  Repeatability across invocations fails only because each run
advances the shared cursor, as the counterexample shows. -/
theorem C5_stream_determinism (xs : List ℚ) (g h : ℕ → ℕ) (s B : ℕ)
    (hgh : ∀ i, i < B * xs.length → g (s + i) = h (s + i)) :
    bootstrapRun xs g s B = bootstrapRun xs h s B := by
  unfold bootstrapRun bootMeans
  refine Prod.ext ?_ rfl
  refine List.map_congr_left (fun i hi => ?_)
  have hiB : i < B := List.mem_range.mp hi
  unfold resampleAt
  refine congrArg mean (List.map_congr_left (fun j hj => ?_))
  have hjn : j < xs.length := List.mem_range.mp hj
  have harith : s + i * xs.length + j = s + (i * xs.length + j) := by ring
  have hbound : i * xs.length + j < B * xs.length := by
    calc i * xs.length + j < i * xs.length + xs.length := by omega
    _ = (i + 1) * xs.length := by ring
    _ ≤ B * xs.length := Nat.mul_le_mul_right _ hiB
  rw [harith, hgh _ hbound]

/-- C5, witness: two streams that agree on the two consumed positions give
the same bootstrap run on the sample `[1, 2]`. -/
theorem C5_witness :
    bootstrapRun [1, 2] (fun n => n) 0 1 =
      bootstrapRun [1, 2] (fun n => if n < 2 then n else 99) 0 1 :=
  C5_stream_determinism [1, 2] (fun n => n) (fun n => if n < 2 then n else 99) 0 1
    (by decide)

/-- The selection update keeps a non-empty accumulator and never lowers the
recorded p-value. -/
theorem passoAjuste_some_le (acc : Option (String × ℚ)) (c : String × Option ℚ)
    (m : String) (r : ℚ) (hacc : acc = some (m, r)) :
    ∃ m' r', passoAjuste acc c = some (m', r') ∧ r ≤ r' := by
  subst hacc
  obtain ⟨cn, copt⟩ := c
  cases copt with
  | none => exact ⟨m, r, rfl, le_refl r⟩
  | some p =>
    by_cases hq : r < p
    · exact ⟨cn, p, by simp [passoAjuste, hq], le_of_lt hq⟩
    · exact ⟨m, r, by simp [passoAjuste, hq], le_refl r⟩

/-- After processing a candidate that fitted with p-value `q`, the
accumulator holds a p-value at least `q`. -/
theorem passoAjuste_absorbs (acc : Option (String × ℚ)) (c : String × Option ℚ)
    (q : ℚ) (hc : c.2 = some q) :
    ∃ m' r', passoAjuste acc c = some (m', r') ∧ q ≤ r' := by
  obtain ⟨cn, copt⟩ := c
  simp only at hc
  subst hc
  cases acc with
  | none => exact ⟨cn, q, rfl, le_refl q⟩
  | some s =>
    obtain ⟨n, r⟩ := s
    by_cases hq : r < q
    · exact ⟨cn, q, by simp [passoAjuste, hq], le_refl q⟩
    · exact ⟨n, r, by simp [passoAjuste, hq], le_of_not_lt hq⟩

/-- The accumulator after one step is either the old accumulator or the
candidate just processed. -/
theorem passoAjuste_cases (acc : Option (String × ℚ)) (c : String × Option ℚ)
    (m : String) (r : ℚ) (hstep : passoAjuste acc c = some (m, r)) :
    acc = some (m, r) ∨ c = (m, some r) := by
  obtain ⟨cn, copt⟩ := c
  cases copt with
  | none => exact Or.inl hstep
  | some p =>
    cases acc with
    | none =>
      simp only [passoAjuste, Option.some.injEq, Prod.mk.injEq] at hstep
      exact Or.inr (by simp [hstep.1, hstep.2])
    | some s =>
      obtain ⟨n, q⟩ := s
      by_cases hq : q < p
      · simp only [passoAjuste, hq, if_true, Option.some.injEq, Prod.mk.injEq] at hstep
        exact Or.inr (by simp [hstep.1, hstep.2])
      · simp only [passoAjuste, hq, if_false, Option.some.injEq, Prod.mk.injEq] at hstep
        exact Or.inl (by simp [hstep.1, hstep.2])

/-- The selection fold returns an empty result exactly when it started empty
and every processed candidate failed to fit. -/
theorem foldl_passo_eq_none (cands : List (String × Option ℚ)) :
    ∀ acc, cands.foldl passoAjuste acc = none ↔
      (acc = none ∧ ∀ c ∈ cands, c.2 = none) := by
  induction cands with
  | nil => intro acc; simp
  | cons c cs ih =>
    intro acc
    rw [List.foldl_cons, ih]
    obtain ⟨cn, copt⟩ := c
    cases copt with
    | none => simp [passoAjuste]
    | some p =>
      cases acc with
      | none => simp [passoAjuste]
      | some s =>
        obtain ⟨n, q⟩ := s
        by_cases hq : q < p <;> simp [passoAjuste, hq]

/-- Invariant of the selection fold: a returned pair was either a processed
candidate or the initial accumulator, and its p-value dominates every
processed candidate's p-value and the initial accumulator's. -/
theorem foldl_passo_eq_some (cands : List (String × Option ℚ)) :
    ∀ acc n p, cands.foldl passoAjuste acc = some (n, p) →
      ((n, some p) ∈ cands ∨ acc = some (n, p)) ∧
      (∀ c ∈ cands, ∀ q, c.2 = some q → q ≤ p) ∧
      (∀ m r, acc = some (m, r) → r ≤ p) := by
  induction cands with
  | nil =>
    intro acc n p h
    simp only [List.foldl_nil] at h
    refine ⟨Or.inr h, by simp, fun m r hmr => ?_⟩
    rw [h] at hmr
    cases hmr
    exact le_refl p
  | cons c cs ih =>
    intro acc n p h
    rw [List.foldl_cons] at h
    obtain ⟨hmem, hbound, hacc⟩ := ih (passoAjuste acc c) n p h
    refine ⟨?_, ?_, ?_⟩
    · rcases hmem with hmem | hstep
      · exact Or.inl (List.mem_cons_of_mem c hmem)
      · rcases passoAjuste_cases acc c n p hstep with hold | hcand
        · exact Or.inr hold
        · exact Or.inl (hcand ▸ List.mem_cons_self c cs)
    · intro c' hc' q hq
      rcases List.mem_cons.mp hc' with rfl | hc'
      · obtain ⟨m', r', hstep, hqr⟩ := passoAjuste_absorbs acc c' q hq
        exact le_trans hqr (hacc m' r' hstep)
      · exact hbound c' hc' q hq
    · intro m r hmr
      obtain ⟨m', r', hstep, hrr⟩ := passoAjuste_some_le acc c m r hmr
      exact le_trans hrr (hacc m' r' hstep)

/-- C2, counterexample.  When the only candidate that fits has the
Kolmogorov–Smirnov p-value 0.01 < 0.05 and every other candidate raises, the
loop still selects that candidate (`Normal`): there is no 0.05 acceptance
threshold, no `Empirical` family and no confidence tag in
`src/app.py` lines 94–109 and 184–187. -/
theorem C2_counterexample :
    melhorAjuste [("Normal", some (1 / 100)), ("Log-Normal", none), ("Beta", none),
        ("Weibull", none)] = some ("Normal", 1 / 100) ∧ (1 / 100 : ℚ) < 5 / 100 := by
  constructor
  · simp [melhorAjuste, passoAjuste]
  · norm_num

/-- C2, amended.  The loop selects the candidate with the highest p-value
among those that fit without raising (the earliest such candidate on ties);
it returns nothing — reported as "could not determine a distribution", not as
an `Empirical` fit — exactly when every candidate raises.  No p-value
acceptance threshold is applied. -/
theorem C2_selection (cands : List (String × Option ℚ)) :
    (melhorAjuste cands = none ↔ ∀ c ∈ cands, c.2 = none) ∧
      (∀ n p, melhorAjuste cands = some (n, p) →
        (n, some p) ∈ cands ∧ ∀ c ∈ cands, ∀ q, c.2 = some q → q ≤ p) := by
  constructor
  · simpa using foldl_passo_eq_none cands none
  · intro n p h
    obtain ⟨hmem, hbound, _⟩ := foldl_passo_eq_some cands none n p h
    exact ⟨hmem.resolve_right (by simp), hbound⟩

/-- C2, witness: on two fitted candidates with p-values 0.1 and 0.3 the loop
returns `Beta`, which is a processed candidate whose p-value dominates
both. -/
theorem C2_witness :
    ("Beta", some (3 / 10 : ℚ)) ∈
        ([("Normal", some (1 / 10)), ("Beta", some (3 / 10))] : List (String × Option ℚ)) ∧
      ∀ c ∈ ([("Normal", some (1 / 10)), ("Beta", some (3 / 10))] :
          List (String × Option ℚ)), ∀ q, c.2 = some q → q ≤ 3 / 10 :=
  (C2_selection [("Normal", some (1 / 10)), ("Beta", some (3 / 10))]).2 "Beta" (3 / 10)
    (by norm_num [melhorAjuste, passoAjuste])

/-- C8.  For a non-empty sample, the `boot_means` list of
`src/app.py` lines 197–200 has exactly `boot_samples` entries, each entry is
the mean of one full-size resample drawn (with replacement) from the sample,
and the reported confidence bounds are the 2.5th and 97.5th percentiles of
that list of resample means.  The final conjunct separates this from the raw
percentile spread of the observations: on the sample `[0, 100]` with a
constant stream, the lower bound differs from the sample's own 2.5th
percentile. -/
theorem C8_bootstrap_ci (xs : List ℚ) (g : ℕ → ℕ) (s B : ℕ) (hxs : xs ≠ []) :
    (bootMeans xs g s B).length = B ∧
      (∀ m ∈ bootMeans xs g s B, ∃ r : List ℚ, r.length = xs.length ∧
        (∀ y ∈ r, y ∈ xs) ∧ m = mean r) ∧
      ci_lower xs g s B = percentile (bootMeans xs g s B) (5 / 2) ∧
      ci_upper xs g s B = percentile (bootMeans xs g s B) (195 / 2) ∧
      ci_lower [0, 100] (fun _ => 0) 0 1 ≠ percentile [0, 100] (5 / 2) := by
  refine ⟨by simp [bootMeans], ?_, rfl, rfl, ?_⟩
  · intro m hm
    unfold bootMeans at hm
    obtain ⟨i, _, rfl⟩ := List.mem_map.mp hm
    refine ⟨resampleAt xs g (s + i * xs.length), by simp [resampleAt], ?_, rfl⟩
    intro y hy
    unfold resampleAt at hy
    obtain ⟨j, _, rfl⟩ := List.mem_map.mp hy
    have hn : 0 < xs.length := List.length_pos.mpr hxs
    have hidx : g (s + i * xs.length + j) % xs.length < xs.length := Nat.mod_lt _ hn
    rw [List.getD_eq_getElem _ _ hidx]
    exact List.getElem_mem hidx
  · norm_num [ci_lower, bootMeans, resampleAt, mean, percentile, List.insertionSort,
      List.orderedInsert, List.range_succ]

/-- C8, witness: the characterization at the sample `[50]`, the constant
stream and one bootstrap iteration. -/
theorem C8_witness :
    (bootMeans [50] (fun _ => 0) 0 1).length = 1 ∧
      (∀ m ∈ bootMeans [50] (fun _ => 0) 0 1, ∃ r : List ℚ, r.length = [(50 : ℚ)].length ∧
        (∀ y ∈ r, y ∈ [(50 : ℚ)]) ∧ m = mean r) ∧
      ci_lower [50] (fun _ => 0) 0 1 = percentile (bootMeans [50] (fun _ => 0) 0 1) (5 / 2) ∧
      ci_upper [50] (fun _ => 0) 0 1 = percentile (bootMeans [50] (fun _ => 0) 0 1) (195 / 2) ∧
      ci_lower [0, 100] (fun _ => 0) 0 1 ≠ percentile [0, 100] (5 / 2) :=
  C8_bootstrap_ci [50] (fun _ => 0) 0 1 (by simp)

/-- C10.  `prepare_long_format` never raises: it silently keeps exactly the
records whose date label parses in `%m/%d/%Y` format (with the parsed date
attached and the availability value unchanged) and returns them sorted in
nondecreasing date order, so every downstream annual statistic sees only
records with a parseable date. -/
theorem C10_long_format (rows : List (String × ℚ)) :
    (prepare_long_format rows).Pairwise rowLE ∧
      (∀ x ∈ prepare_long_format rows, ∃ pr ∈ rows, parseMDY pr.1 = some x.1 ∧ x.2 = pr.2) ∧
      (∀ pr ∈ rows, ∀ t, parseMDY pr.1 = some t → (t, pr.2) ∈ prepare_long_format rows) := by
  refine ⟨List.sorted_insertionSort rowLE _, ?_, ?_⟩
  · intro x hx
    rw [prepare_long_format, List.mem_insertionSort, List.mem_filterMap] at hx
    obtain ⟨pr, hpr, hf⟩ := hx
    rw [Option.map_eq_some'] at hf
    obtain ⟨t, ht, hx2⟩ := hf
    subst hx2
    exact ⟨pr, hpr, ht, rfl⟩
  · intro pr hpr t ht
    rw [prepare_long_format, List.mem_insertionSort, List.mem_filterMap]
    exact ⟨pr, hpr, by rw [ht, Option.map_some']⟩

/-- C10, witness: of the two records `("02/30/2021", 5)` (02/30 is not a
valid calendar date, so the label does not parse) and `("01/15/2020", 90)`,
the second one survives with its parsed date. -/
theorem C10_witness :
    ((2020, 1, 15), (90 : ℚ)) ∈
      prepare_long_format [("02/30/2021", 5), ("01/15/2020", 90)] :=
  (C10_long_format [("02/30/2021", 5), ("01/15/2020", 90)]).2.2 ("01/15/2020", 90)
    (by norm_num) (2020, 1, 15) (by decide)

end WindApp
